import Mathlib

/-!
Verification development for the dbv-ranking scraper.

This file gives a shallow embedding, in Lean, of the table-parsing pipeline of
`scraper.py` (`parse_ruler_table` and its helpers `_expand_header_cells`,
`_extract_cell_text`, `_extract_player_id_from_td`, `normalize_ws`), and proves
or refutes the specification claims about it.

Modelling conventions:
* HTML is modelled at the level BeautifulSoup exposes it to the code: a page is
  a list of tables; a table has a class list and a list of rows; a row has its
  header cells and data cells; a cell has its class list, title attribute,
  first contained anchor, and text content.
* Python dicts are association lists with update-in-place / append-on-new-key
  semantics (preserving insertion order), values are `Value` (int or str).
* Python exceptions are an `Except PyErr` result; `PyErr` distinguishes the
  ValueError raised when the ruler table is missing, the ValueError raised by
  `int()` on an unparseable string, and the AttributeError raised by calling a
  method on `None`.
* The regex character class `\d` and `str.lower` are modelled on ASCII, and
  percent-decoding in `parse_qsl` decodes single bytes (a non-ASCII byte
  becomes U+FFFD); exotic Unicode inputs are outside the scope of the claims.
* `int()` is modelled with CPython's full literal grammar for decimal input:
  surrounding whitespace, an optional sign, and PEP 515 underscore grouping
  (single underscores strictly between digits), so `int("1_0")` is 10 while
  `"_1"`, `"1_"` and `"1__0"` raise.
* `urllib.parse.urlsplit` is modelled per CPython 3.11: leading C0-control
  and space characters are stripped, then all tab/CR/LF characters removed,
  a syntactically valid scheme prefix is dropped, a `//`-introduced netloc
  runs to the first of `/?#`, a mismatched `[`/`]` in the netloc raises the
  `Invalid IPv6 URL` ValueError, and a bracketed host is validated as an
  IPv6 address (with optional `%scope`) or an IPvFuture literal, raising a
  ValueError otherwise; the query is what follows the first `?` before the
  first `#`. `_checknetloc`'s NFKC check concerns only non-ASCII netlocs and
  is outside the ASCII scope above.
-/

namespace DbvScraper

/-- A Python value stored in a record: either an `int` or a `str`. -/
inductive Value where
  | int (n : Int)
  | str (s : String)
deriving DecidableEq, Repr

/-- The Python exceptions the parsing pipeline can raise.
`tableNotFound` is the `ValueError` raised when no ruler table exists,
`intParseFailure` the `ValueError` raised by `int()` on a bad literal
(e.g. a non-numeric `colspan`), `attributeFailure` the `AttributeError`
raised by `None.find_all` when the table has no row at all,
`invalidIpv6` the `Invalid IPv6 URL` ValueError of `urlsplit` on a netloc
with a mismatched bracket, and `invalidHostAddress` the ValueError of the
bracketed-host validation (`_check_bracketed_host`). -/
inductive PyErr where
  | tableNotFound
  | intParseFailure
  | attributeFailure
  | invalidIpv6
  | invalidHostAddress
deriving DecidableEq, Repr

/-- An anchor element inside a cell: its visible text and optional href. -/
structure Anchor where
  text : String
  href : Option String
deriving DecidableEq, Repr

/-- A data cell as the code reads it: class attribute list, title attribute,
the first contained anchor (result of `td.find("a")`), and its text content
(result of `td.get_text`). -/
structure Td where
  classes : List String
  title : Option String
  anchor : Option Anchor
  text : String
deriving DecidableEq, Repr

/-- A header cell: its text content and the raw string value of its
`colspan` attribute, when present. -/
structure Th where
  text : String
  colspan : Option String
deriving DecidableEq, Repr

/-- A table row, split as the code accesses it: its header cells
(`tr.find_all("th")`) and its data cells (`tr.find_all("td")`). -/
structure Tr where
  ths : List Th
  tds : List Td
deriving DecidableEq, Repr

/-- A table: its class attribute list and its rows. -/
structure Table where
  classes : List String
  trs : List Tr
deriving DecidableEq, Repr

/-- A record produced for one ranking row: a Python dict from column name
to value, in insertion order. -/
abbrev Record := List (String × Value)

/-- Python dict read: first (unique) binding of the key. -/
def alistGet {α : Type} (m : List (String × α)) (k : String) : Option α :=
  match m with
  | [] => none
  | (k₂, v) :: rest => if k₂ = k then some v else alistGet rest k

/-- Python dict write: update the existing binding in place, else append. -/
def alistSet {α : Type} (m : List (String × α)) (k : String) (v : α) : List (String × α) :=
  match m with
  | [] => [(k, v)]
  | (k₂, v₂) :: rest => if k₂ = k then (k, v) :: rest else (k₂, v₂) :: alistSet rest k v

/-- Python `str()` of a record value. -/
def pyStr : Value → String
  | Value.int n => toString n
  | Value.str s => s

/-- The whitespace characters of the Python regex class `\s` (ASCII part). -/
def isPyWs (c : Char) : Bool :=
  c = ' ' || c = '\t' || c = '\n' || c = '\r' || c = Char.ofNat 11 || c = Char.ofNat 12

/-- Collapse every maximal whitespace run to a single space
(the effect of `re.sub(r"\s+", " ", s)`); the flag records whether the
previous character was whitespace. -/
def collapseWsAux : Bool → List Char → List Char
  | _, [] => []
  | prevWs, c :: rest =>
    if isPyWs c then
      if prevWs then collapseWsAux true rest
      else ' ' :: collapseWsAux true rest
    else c :: collapseWsAux false rest

/-- Remove trailing spaces (after collapsing, all whitespace is a space). -/
def dropTrailingSpaces (l : List Char) : List Char :=
  (l.reverse.dropWhile (fun c => c = ' ')).reverse

/-- `normalize_ws`: collapse whitespace runs to single spaces and strip. -/
def normalizeWs (s : String) : String :=
  String.mk (dropTrailingSpaces ((collapseWsAux false s.data).dropWhile (fun c => c = ' ')))

/-- Decimal value of a digit list. -/
def digitsToNat (l : List Char) : Nat :=
  l.foldl (fun a c => a * 10 + (c.toNat - '0'.toNat)) 0

/-- Python `str.strip()` as used by `int()` (ASCII whitespace). -/
def stripWs (l : List Char) : List Char :=
  ((l.dropWhile isPyWs).reverse.dropWhile isPyWs).reverse

/-- Digit run continuation with PEP-515 grouping: after a digit, either the
list ends, another digit follows, or a single underscore is followed by a
digit; returns the digits with underscores removed, `none` on a misplaced
underscore or a non-digit. -/
def groupedRest : List Char → Option (List Char)
  | [] => some []
  | [c] => if c.isDigit then some [c] else none
  | c :: c₂ :: rest =>
    if c = '_' then
      if c₂.isDigit then (groupedRest rest).map (fun ds => c₂ :: ds) else none
    else if c.isDigit then (groupedRest (c₂ :: rest)).map (fun ds => c :: ds) else none

/-- The digit part of a Python integer literal: a leading digit followed by
digits with single underscores strictly between digits (PEP 515); returns
the digits with underscores removed. -/
def pyIntDigits (l : List Char) : Option (List Char) :=
  match l with
  | [] => none
  | c :: rest => if c.isDigit then (groupedRest rest).map (fun ds => c :: ds) else none

/-- The integer denoted by a stripped character list: an optional sign
followed by grouped digits, nothing else. -/
def intOfDigitsSigned (l : List Char) : Option Int :=
  match l with
  | [] => none
  | c :: rest =>
    if c = '-' then (pyIntDigits rest).map (fun ds => -(digitsToNat ds : Int))
    else if c = '+' then (pyIntDigits rest).map (fun ds => (digitsToNat ds : Int))
    else (pyIntDigits (c :: rest)).map (fun ds => (digitsToNat ds : Int))

/-- Python `int(s)` on a string: strip whitespace, then an optional sign and
digits with PEP-515 underscore grouping (`int("1_0")` is 10); `none` models
the `ValueError` on any other shape. -/
def pyIntStr (s : String) : Option Int := intOfDigitsSigned (stripWs s.data)

/-- Try to strip a literal character-list as a leading pattern. -/
def stripLit : List Char → List Char → Option (List Char)
  | [], l => some l
  | _ :: _, [] => none
  | p :: ps, c :: cs => if c = p then stripLit ps cs else none

/-- Match the regex `Previous rank:\s*(\d+)` anchored at the head of the list,
returning the captured digit group. -/
def matchPrevRankAt (l : List Char) : Option String :=
  match stripLit ("Previous rank:").data l with
  | none => none
  | some rest =>
    let ds := (rest.dropWhile isPyWs).takeWhile Char.isDigit
    if ds.isEmpty then none else some (String.mk ds)

/-- `re.search(r"Previous rank:\s*(\d+)", s)`: leftmost match of the pattern. -/
def prevRankSearch : List Char → Option String
  | [] => none
  | c :: rest =>
    match matchPrevRankAt (c :: rest) with
    | some d => some d
    | none => prevRankSearch rest

/-- First maximal digit run of a list, as matched by `re.search(r"\d+", s)`. -/
def firstDigitRun : List Char → Option (List Char)
  | [] => none
  | c :: rest =>
    if c.isDigit then some (c :: rest.takeWhile Char.isDigit) else firstDigitRun rest

/-- `re.search(r"\d+", s)` followed by `int(...)` on the matched group. -/
def searchDigits (s : String) : Option Nat :=
  (firstDigitRun s.data).map digitsToNat

/-- Value of a hex digit, if any. -/
def hexVal (c : Char) : Option Nat :=
  if '0' ≤ c ∧ c ≤ '9' then some (c.toNat - '0'.toNat)
  else if 'a' ≤ c ∧ c ≤ 'f' then some (c.toNat - 'a'.toNat + 10)
  else if 'A' ≤ c ∧ c ≤ 'F' then some (c.toNat - 'A'.toNat + 10)
  else none

/-- `urllib.parse.unquote_plus`: plus becomes space, `%XX` decodes a byte
(single-byte model: a non-ASCII byte becomes U+FFFD). -/
def unquotePlusChars : List Char → List Char
  | [] => []
  | '+' :: rest => ' ' :: unquotePlusChars rest
  | '%' :: a :: b :: rest =>
    match hexVal a, hexVal b with
    | some ha, some hb =>
      (if ha * 16 + hb < 128 then Char.ofNat (ha * 16 + hb) else Char.ofNat 0xFFFD)
        :: unquotePlusChars rest
    | _, _ => '%' :: unquotePlusChars (a :: b :: rest)
  | c :: rest => c :: unquotePlusChars rest

/-- The part of the list after the first occurrence of a separator
(Python `s.split(sep, 1)[1]`), or `none` when the separator is absent. -/
def afterFirst (sep : Char) (l : List Char) : Option (List Char) :=
  match l.dropWhile (fun c => c != sep) with
  | [] => none
  | _ :: rest => some rest

/-- Split a character list at every occurrence of a separator
(Python `s.split(sep)`; the empty list yields one empty chunk). -/
def splitChar (sep : Char) : List Char → List (List Char)
  | [] => [[]]
  | c :: rest =>
    let r := splitChar sep rest
    if c = sep then [] :: r
    else
      match r with
      | [] => [[c]]
      | hd :: tl => (c :: hd) :: tl

/-- The bytes CPython `urlsplit` removes from a URL (tab, CR, LF). -/
def isUnsafeUrlChar (c : Char) : Bool := c = '\t' || c = '\r' || c = '\n'

/-- The characters allowed in a URL scheme (letters, digits, plus, minus,
dot). -/
def schemeChar (c : Char) : Bool := c.isAlphanum || c = '+' || c = '-' || c = '.'

/-- `urlsplit`'s scheme strip: when a colon exists at a positive position
and everything before it is scheme characters starting with an ASCII
letter, drop the scheme and the colon. -/
def stripScheme (l : List Char) : List Char :=
  let pre := l.takeWhile (fun c => c != ':')
  if pre.length < l.length ∧ pre ≠ [] ∧ (pre.headD ' ').isAlpha = true ∧
      pre.all schemeChar = true then
    l.drop (pre.length + 1)
  else l

/-- `ipaddress.IPv4Address._parse_octet`: a decimal octet — non-empty, all
digits, at most three characters, no leading zero (except `0` itself), and
at most 255. -/
def validOctet (l : List Char) : Bool :=
  !l.isEmpty && l.all Char.isDigit && decide (l.length ≤ 3)
    && (decide (l = ['0']) || !decide (l.headD '0' = '0'))
    && decide (digitsToNat l ≤ 255)

/-- `ipaddress.IPv4Address` on a string: no slash, exactly four
dot-separated valid octets. -/
def validIPv4 (l : List Char) : Bool :=
  !l.contains '/' &&
    (let octs := splitChar '.' l
     decide (octs.length = 4) && octs.all validOctet)

/-- `ipaddress.IPv6Address._parse_hextet`: one to four hex digits. -/
def validHextet (l : List Char) : Bool :=
  !l.isEmpty && l.all (fun c => (hexVal c).isSome) && decide (l.length ≤ 4)

/-- The core of `ipaddress.IPv6Address._ip_int_from_string` on the
colon-separated parts (after the IPv4-suffix transform): at most nine
parts, at most one empty interior part (the `::`), empty endpoints only as
part of a `::`, at most seven other parts beside a `::` (exactly eight
without one), every remaining part a valid hextet. -/
def validIPv6Parts (parts : List (List Char)) : Bool :=
  if 9 < parts.length then false
  else
    match ((List.range (parts.length - 1)).drop 1).filter
        (fun i => (parts.getD i [('x')]).isEmpty) with
    | [] =>
      decide (parts.length = 8) && !(parts.headD []).isEmpty
        && !(parts.getLastD []).isEmpty && parts.all validHextet
    | [skip] =>
      let headEmpty := (parts.headD [('x')]).isEmpty
      let lastEmpty := (parts.getLastD [('x')]).isEmpty
      let hi := if headEmpty then skip - 1 else skip
      let lo :=
        if lastEmpty then parts.length - skip - 1 - 1 else parts.length - skip - 1
      if headEmpty && !decide (hi = 0) then false
      else if lastEmpty && !decide (lo = 0) then false
      else if decide (8 ≤ hi + lo) then false
      else (parts.take hi).all validHextet
        && (parts.drop (parts.length - lo)).all validHextet
    | _ => false

/-- `ipaddress.IPv6Address._ip_int_from_string` validity: non-empty, at
least three colon-separated parts, a dotted last part must be a valid IPv4
address (contributing two hextets), then the parts rules. -/
def validIPv6Addr (l : List Char) : Bool :=
  if l.isEmpty then false
  else
    let parts := splitChar ':' l
    if parts.length < 3 then false
    else if (parts.getLastD []).contains '.' then
      validIPv4 (parts.getLastD [])
        && validIPv6Parts (parts.dropLast ++ [[('0')], [('0')]])
    else validIPv6Parts parts

/-- `ipaddress.IPv6Address` on a string: no slash, an optional non-empty
`%scope` (itself percent-free) split off first, then a valid address. -/
def validIPv6 (l : List Char) : Bool :=
  if l.contains '/' then false
  else
    match afterFirst '%' l with
    | none => validIPv6Addr l
    | some scope =>
      if scope.isEmpty || scope.contains '%' then false
      else validIPv6Addr (l.takeWhile (fun c => c != '%'))

/-- The IPvFuture shape `v`, one or more hex digits, a dot, and at least
one more character (the regex in `_check_bracketed_host`; the URL has no
newline left at this point, so dot-matches-any is exact). -/
def validIPvFuture (l : List Char) : Bool :=
  match l with
  | 'v' :: rest =>
    let hexpart := rest.takeWhile (fun c => (hexVal c).isSome)
    (!hexpart.isEmpty &&
      (match rest.drop hexpart.length with
       | '.' :: tail => !tail.isEmpty
       | _ => false))
  | _ => false

/-- `urllib.parse._check_bracketed_host`: a host starting with `v` must be
an IPvFuture; otherwise `ipaddress.ip_address` must accept it and an IPv4
address is rejected, so exactly the valid IPv6 addresses pass. -/
def bracketedHostOk (host : List Char) : Bool :=
  if host.headD ' ' = 'v' then validIPvFuture host
  else !validIPv4 host && validIPv6 host

/-- `urlsplit`'s netloc step on the scheme-stripped URL: when it starts
with `//`, the netloc runs to the first of `/?#`; a bracket on one side
only raises the Invalid-IPv6 ValueError, and a bracketed host must pass
`_check_bracketed_host`. Returns the URL remainder after the netloc. -/
def netlocSplit (l : List Char) : Except PyErr (List Char) :=
  match l with
  | '/' :: '/' :: rest =>
    let netloc := rest.takeWhile (fun c => c != '/' && c != '?' && c != '#')
    if (netloc.contains '[' && !netloc.contains ']')
        || (netloc.contains ']' && !netloc.contains '[') then
      Except.error PyErr.invalidIpv6
    else if netloc.contains '[' && netloc.contains ']' then
      if bracketedHostOk (((afterFirst '[' netloc).getD []).takeWhile (fun c => c != ']')) then
        Except.ok (rest.drop netloc.length)
      else Except.error PyErr.invalidHostAddress
    else Except.ok (rest.drop netloc.length)
  | _ => Except.ok l

/-- The `query` component of `urllib.parse.urlsplit` (CPython 3.11),
including its error behaviour: leading C0-control/space characters are
stripped, tab/CR/LF removed everywhere, the scheme stripped, the netloc
split off with its bracket checks, the fragment dropped, and the query is
what follows the first remaining question mark. (`_checknetloc` only
rejects some non-ASCII netlocs, outside the ASCII scope of this model.) -/
def urlsplitQuery (href : String) : Except PyErr String :=
  match netlocSplit (stripScheme
      ((href.data.dropWhile (fun c => decide (c ≤ ' '))).filter
        (fun c => !isUnsafeUrlChar c))) with
  | Except.error e => Except.error e
  | Except.ok rest =>
    match afterFirst '?' (rest.takeWhile (fun c => c != '#')) with
    | none => Except.ok ("")
    | some q => Except.ok (String.mk q)

/-- One chunk of `parse_qsl` (defaults: blank values dropped, not strict):
split at the first equals sign, skip chunks without one or with an empty
value, percent-decode name and value. -/
def parsePair (chunk : List Char) : Option (String × String) :=
  if chunk.isEmpty then none
  else
    match afterFirst '=' chunk with
    | none => none
    | some valueChars =>
      if valueChars.isEmpty then none
      else some (String.mk (unquotePlusChars (chunk.takeWhile (fun c => c != '='))),
        String.mk (unquotePlusChars valueChars))

/-- `urllib.parse.parse_qsl` with default options, separator the ampersand. -/
def parseQsl (qs : String) : List (String × String) :=
  (splitChar '&' qs.data).filterMap parsePair

/-- `dict(parse_qsl(urlparse(href).query)).get("player")`: the value of the
`player` query parameter of an href (last occurrence wins, as in `dict`),
or the ValueError `urlparse` raises on a malformed URL. -/
def playerParamE (href : String) : Except PyErr (Option String) :=
  match urlsplitQuery href with
  | Except.error e => Except.error e
  | Except.ok q =>
    Except.ok (alistGet ((parseQsl q).foldl (fun m p => alistSet m p.1 p.2) []) ("player"))

/-- `_extract_player_id_from_td`: the integer `player` query parameter of the
cell anchor href, provided its value is all digits; `none` in every other
case — no anchor, no or empty href, missing or non-numeric parameter, or a
malformed URL whose `urlparse` ValueError the `except` clause swallows. -/
def extractPlayerIdFromTd (td : Td) : Option Int :=
  match td.anchor with
  | none => none
  | some a =>
    match a.href with
    | none => none
    | some href =>
      if href = ("") then none
      else
        match playerParamE href with
        | Except.error _ => none
        | Except.ok none => none
        | Except.ok (some v) =>
          if v ≠ ("") ∧ v.data.all Char.isDigit then some ((digitsToNat v.data : Nat) : Int)
          else none

/-- `_extract_cell_text`: for a rank-change cell (class `rank_equal`,
`rank_up` or `rank_down`), the digits of `Previous rank: N` in the title win;
otherwise the anchor text if an anchor exists, else the cell text, both
whitespace-normalized. -/
def extractCellText (td : Td) : String :=
  if td.classes.any (fun c => c == ("rank_equal") || c == ("rank_up") || c == ("rank_down")) then
    match prevRankSearch (td.title.getD ("")).data with
    | some d => d
    | none =>
      match td.anchor with
      | some a => normalizeWs a.text
      | none => normalizeWs td.text
  else
    match td.anchor with
    | some a => normalizeWs a.text
    | none => normalizeWs td.text

/-- `int(th.get("colspan", 1))` — `none` models the raised `ValueError`. -/
def colspanVal (th : Th) : Option Int :=
  match th.colspan with
  | none => some 1
  | some s => pyIntStr s

/-- The base label of a header cell: normalized text, or `Flag` if blank. -/
def baseLabel (th : Th) : String :=
  let t := normalizeWs th.text
  if t = ("") then ("Flag") else t

/-- `_expand_header_cells`: a cell spanning `n > 1` columns becomes the base
label followed by `base#2 … base#n`; an unparseable colspan raises. -/
def expandHeaderCells (th : Th) : Except PyErr (List String) :=
  match colspanVal th with
  | none => Except.error PyErr.intParseFailure
  | some n =>
    if n ≤ 1 then Except.ok [baseLabel th]
    else Except.ok (baseLabel th ::
      (List.range (n.toNat - 1)).map (fun i => baseLabel th ++ ("#") ++ toString (i + 2)))

/-- Expand all header cells of the header row, first failure propagating. -/
def expandAll : List Th → Except PyErr (List String)
  | [] => Except.ok []
  | th :: rest =>
    match expandHeaderCells th, expandAll rest with
    | Except.ok ls, Except.ok rs => Except.ok (ls ++ rs)
    | Except.error e, _ => Except.error e
    | _, Except.error e => Except.error e

/-- The fixed case-insensitive synonym table for canonical column names. -/
def canonPairs : List (String × String) :=
  [("rang", "Rank"), ("rang#2", "RankChange"), ("spieler", "Player"),
   ("spieler/in", "Player"), ("gjahr", "BirthYear"), ("geburtsjahr", "BirthYear"),
   ("punkte", "Points"), ("region", "Region"), ("verein", "Club"),
   ("turniere", "Tournaments"), ("flag", "Flag")]

/-- Python `str.lower` on one character (ASCII model). -/
def lowerChar (c : Char) : Char :=
  if 'A' ≤ c ∧ c ≤ 'Z' then Char.ofNat (c.toNat + 32) else c

/-- Python `str.lower` (ASCII model). -/
def lowerStr (s : String) : String := String.mk (s.data.map lowerChar)

/-- `canon.get(h.lower(), h)`: canonical name, unknown labels pass through. -/
def canonMap (h : String) : String :=
  match alistGet canonPairs (lowerStr h) with
  | some c => c
  | none => h

/-- ASCII word character of the regex `\b` boundary. -/
def wordChar (c : Char) : Bool := c.isAlphanum || c = '_'

/-- Strip a literal `ruler` from the head of the list. -/
def rulerAt : List Char → Option (List Char)
  | 'r' :: 'u' :: 'l' :: 'e' :: 'r' :: rest => some rest
  | _ => none

/-- Scan for a `\bruler\b` match; the flag records whether the previous
character was a word character. -/
def hasWordRulerAux : Bool → List Char → Bool
  | _, [] => false
  | prevW, c :: rest =>
    (match rulerAt (c :: rest) with
     | some after =>
       !prevW && (match after with
                  | [] => true
                  | d :: _ => !wordChar d)
     | none => false)
    || hasWordRulerAux (wordChar c) rest

/-- `re.compile(r"\bruler\b").search(cls)` on one class token. -/
def hasWordRuler (s : String) : Bool := hasWordRulerAux false s.data

/-- Locate the ranking table: first a table whose class list contains
`ruler` exactly, else the first whose class matches the regex fallback. -/
def findRuler (page : List Table) : Option Table :=
  match page.find? (fun t => t.classes.contains ("ruler")) with
  | some t => some t
  | none => page.find? (fun t => t.classes.any hasWordRuler)

/-- Python `list.insert(n, a)`: insert at position `n`, clamping to the end. -/
def insertAt : Nat → String → List String → List String
  | 0, a, l => a :: l
  | _ + 1, a, [] => [a]
  | n + 1, a, x :: xs => x :: insertAt n a xs

/-- Insert the virtual `PreviousRank` column right after `RankChange`
(else at position 1), unless already present. -/
def insertPreviousRank (hk : List String) : List String :=
  if hk.contains ("PreviousRank") then hk
  else
    match hk.findIdx? (fun h => h == ("RankChange")) with
    | some i => insertAt (i + 1) ("PreviousRank") hk
    | none => insertAt 1 ("PreviousRank") hk

/-- Insert the virtual `PlayerId` column right after `Player`
(else appended), unless already present. -/
def insertPlayerId (hk : List String) : List String :=
  if hk.contains ("PlayerId") then hk
  else
    match hk.findIdx? (fun h => h == ("Player")) with
    | some i => insertAt (i + 1) ("PlayerId") hk
    | none => hk ++ [("PlayerId")]

/-- The virtual columns, never zipped against positional cell values. -/
def virtualNames : List String := ["PreviousRank", "PlayerId", "RankWeek"]

/-- `headers_for_zip`: the schema without the virtual columns. -/
def headersForZip (hk : List String) : List String :=
  hk.filter (fun h => !(virtualNames.contains h))

/-- `drop_flag`: drop the blank column unless the caller keeps it. -/
def dropFlagOf (keepFlag : Bool) (hk0 : List String) : Bool :=
  !keepFlag && hk0.contains ("Flag")

/-- The index of `Flag` in the canonical headers, captured before any
virtual-column insertion; `none` when the column is kept. -/
def flagIndexOf (keepFlag : Bool) (hk0 : List String) : Option Nat :=
  if dropFlagOf keepFlag hk0 then hk0.findIdx? (fun h => h == ("Flag")) else none

/-- Header schema after the flag drop and both virtual-column insertions. -/
def fullHeaderKeys (keepFlag : Bool) (hk0 : List String) : List String :=
  let hk1 := if dropFlagOf keepFlag hk0 then hk0.filter (fun h => !(h == ("Flag"))) else hk0
  insertPlayerId (insertPreviousRank hk1)

/-- Returned header schema: `RankWeek` appended when missing. -/
def finalHeaderKeys (hk : List String) : List String :=
  if hk.contains ("RankWeek") then hk else hk ++ [("RankWeek")]

/-- `del values[flag_index]`, guarded exactly as in the code: only when the
flag is dropped and the captured index is within the row. -/
def dropFlagValue (dropFlag : Bool) (flagIndex : Option Nat) (values : List String) :
    List String :=
  match dropFlag, flagIndex with
  | true, some i => if i < values.length then values.eraseIdx i else values
  | _, _ => values

/-- Pad a short row with empty strings, truncate a long one. -/
def padTruncate (n : Nat) (values : List String) : List String :=
  if values.length < n then values ++ List.replicate (n - values.length) ("")
  else values.take n

/-- `dict(zip(headers, values))`. -/
def zipToDict (headers : List String) (values : List String) : Record :=
  (List.zip headers values).foldl (fun m kv => alistSet m kv.1 (Value.str kv.2)) []

/-- The `PlayerId` record value: the extracted id, or the empty string. -/
def pidValue : Option Int → Value
  | some n => Value.int n
  | none => Value.str ("")

/-- Strip every character that is not a digit or a minus sign
(`re.sub(r"[^\d\-]", "", s)`). -/
def stripNonNum (s : String) : String :=
  String.mk (s.data.filter (fun c => c.isDigit || c == '-'))

/-- Numeric coercion of one field value: keep digits and minus signs and
parse with `int()`; on an empty remainder or a parse failure the original
value is kept (the code then skips the assignment, which is observationally
the same as writing the original value back). -/
def coerceValue (v : Value) : Value :=
  if stripNonNum (pyStr v) = ("") then v
  else
    match pyIntStr (stripNonNum (pyStr v)) with
    | some n => Value.int n
    | none => v

/-- The numeric fields, in the order the code coerces them. -/
def numericFields : List String :=
  ["Rank", "BirthYear", "Points", "Tournaments", "RankChange"]

/-- Coerce one field when present: optionally snapshot the raw text into
`<Field>_raw`, then store the coerced value. -/
def coerceOne (keepRaw : Bool) (r : Record) (f : String) : Record :=
  match alistGet r f with
  | none => r
  | some v =>
    let r1 := if keepRaw then alistSet r (f ++ ("_raw")) v else r
    alistSet r1 f (coerceValue v)

/-- The numeric-coercion loop over the five fields. -/
def coerceFields (keepRaw : Bool) (r : Record) : Record :=
  numericFields.foldl (coerceOne keepRaw) r

/-- Recover the previous-rank number from the rank-change cell: with raw
retention off and a coerced integer, that integer; otherwise the first digit
run of the raw snapshot (raw mode) or of the current value. -/
def recoverPrevRank (keepRaw : Bool) (r : Record) : Option Int :=
  let rawPrev := if keepRaw then alistGet r ("RankChange_raw") else alistGet r ("RankChange")
  match alistGet r ("RankChange"), keepRaw with
  | some (Value.int n), false => some n
  | _, _ =>
    match rawPrev with
    | none => none
    | some v => (searchDigits (pyStr v)).map (fun m => (m : Int))

/-- The coerced current rank, when it is an integer. -/
def currRankInt (r : Record) : Option Int :=
  match alistGet r ("Rank") with
  | some (Value.int n) => some n
  | _ => none

/-- Derive `PreviousRank` and `RankChange` (the delta) and set `RankWeek`. -/
def finishRecord (keepRaw : Bool) (rankWeek : Option String) (r : Record) : Record :=
  let r2 :=
    match recoverPrevRank keepRaw r, currRankInt r with
    | some p, some c =>
      alistSet (alistSet r ("PreviousRank") (Value.int p)) ("RankChange") (Value.int (p - c))
    | _, _ =>
      alistSet (alistSet r ("PreviousRank") (Value.str (""))) ("RankChange") (Value.int 0)
  alistSet r2 ("RankWeek") (Value.str (rankWeek.getD ("")))

/-- The record of one data row before the rank-field derivation: extract
cell texts, drop the flag value at the captured index, pad or truncate, zip
with the non-virtual headers, attach `PlayerId` from the fixed original cell
position 3, and coerce the numeric fields. -/
def preRecord (hzip : List String) (dropFlag : Bool) (flagIndex : Option Nat)
    (keepRaw : Bool) (tds : List Td) : Record :=
  let values := padTruncate hzip.length (dropFlagValue dropFlag flagIndex (tds.map extractCellText))
  let rec0 := zipToDict hzip values
  let pid :=
    match tds.get? 3 with
    | some td => extractPlayerIdFromTd td
    | none => none
  coerceFields keepRaw (alistSet rec0 ("PlayerId") (pidValue pid))

/-- Build the record of one data row: the pre-derivation record followed by
the `PreviousRank` / `RankChange` / `RankWeek` derivation. -/
def buildRecord (hzip : List String) (dropFlag : Bool) (flagIndex : Option Nat)
    (keepRaw : Bool) (rankWeek : Option String) (tds : List Td) : Record :=
  finishRecord keepRaw rankWeek (preRecord hzip dropFlag flagIndex keepRaw tds)

/-- Process one `tr`: skip rows containing a header cell, a pagination
marker cell (`noruler`), or no data cell at all. -/
def processRow (hzip : List String) (dropFlag : Bool) (flagIndex : Option Nat)
    (keepRaw : Bool) (rankWeek : Option String) (tr : Tr) : Option Record :=
  if !tr.ths.isEmpty then none
  else if tr.tds.any (fun td => td.classes.contains ("noruler")) then none
  else if tr.tds.isEmpty then none
  else some (buildRecord hzip dropFlag flagIndex keepRaw rankWeek tr.tds)

/-- Rows and final header schema of a located table, given the canonical
header names of its header row. -/
def parseRows (table : Table) (keepFlag : Bool) (rankWeek : Option String) (keepRaw : Bool)
    (hk0 : List String) : List Record × List String :=
  let hk3 := fullHeaderKeys keepFlag hk0
  (table.trs.filterMap
      (processRow (headersForZip hk3) (dropFlagOf keepFlag hk0) (flagIndexOf keepFlag hk0)
        keepRaw rankWeek),
    finalHeaderKeys hk3)

/-- `parse_ruler_table`: locate the ruler table (ValueError when absent),
read the header row of the first `tr` (AttributeError when there is none),
expand and canonicalize the headers, then build one record per data row. -/
def parseRulerTable (page : List Table) (keepFlag : Bool) (rankWeek : Option String)
    (keepRaw : Bool) : Except PyErr (List Record × List String) :=
  match findRuler page with
  | none => Except.error PyErr.tableNotFound
  | some table =>
    match table.trs.head? with
    | none => Except.error PyErr.attributeFailure
    | some headerTr =>
      match expandAll headerTr.ths with
      | Except.error e => Except.error e
      | Except.ok rawHeaders =>
        Except.ok (parseRows table keepFlag rankWeek keepRaw (rawHeaders.map canonMap))

/-- The coercion the claim literally describes: keep the digits, and a minus
sign only when it is the leading character of the original text; parse the
remainder as an integer, keeping the original text on failure. -/
def coerceClaimLiteral (s : String) : Value :=
  let lead : List Char := if s.data.head? = some '-' then ['-'] else []
  let kept := lead ++ (s.data.drop (lead.length)).filter Char.isDigit
  match pyIntStr (String.mk kept) with
  | some n => Value.int n
  | none => Value.str s

/-- The amended coercion claim, stated in its own words: strip every
character except digits and minus signs wherever they occur; if what is left
is an optional leading minus followed by at least one digit and nothing
else, the field becomes that integer, otherwise it keeps its original text. -/
def coerceAmendedSpec (s : String) : Value :=
  match s.data.filter (fun c => c.isDigit || c == '-') with
  | [] => Value.str s
  | c :: rest =>
    if c = '-' then
      if !rest.isEmpty && rest.all Char.isDigit then Value.int (-(digitsToNat rest : Int))
      else Value.str s
    else if (c :: rest).all Char.isDigit then Value.int ((digitsToNat (c :: rest) : Int))
    else Value.str s

/-- The `<Field>_raw` audit keys the coercion loop can create. -/
def rawFieldKeys : List String :=
  ["Rank_raw", "BirthYear_raw", "Points_raw", "Tournaments_raw", "RankChange_raw"]

/-- The keys on which raw-retention may change a record: the audit snapshots
plus the two derived rank fields. -/
def rawSensitiveKeys : List String :=
  rawFieldKeys ++ ["PreviousRank", "RankChange"]

/-- Records agree on every key outside the raw-sensitive set. -/
def recAgree (r₁ r₂ : Record) : Prop :=
  ∀ k : String, rawSensitiveKeys.contains k = false → alistGet r₁ k = alistGet r₂ k

/-- Records agree on every key that is not a raw snapshot. -/
def rawAgree (r₁ r₂ : Record) : Prop :=
  ∀ k : String, rawFieldKeys.contains k = false → alistGet r₁ k = alistGet r₂ k

/-- The header row of the end-to-end example page of the spec: `Rang`
spanning two columns, then `Spieler`, `GJahr`, `Punkte`. -/
def c1HeaderTr : Tr :=
  ⟨[⟨("Rang"), some ("2")⟩, ⟨("Spieler"), none⟩, ⟨("GJahr"), none⟩, ⟨("Punkte"), none⟩], []⟩

/-- The single data row of the end-to-end example: rank 1, an up-arrow cell
whose title carries previous rank 3, the player link, birth year, points. -/
def c1DataTds : List Td :=
  [⟨[], none, none, ("1")⟩,
   ⟨[("rank_up")], some ("Previous rank: 3"), none, ("x")⟩,
   ⟨[], none, some ⟨("Jane Doe"), some ("p?player=42")⟩, ("Jane Doe")⟩,
   ⟨[], none, none, ("1990")⟩,
   ⟨[], none, none, ("500")⟩]

/-- The end-to-end example page of the spec (claim C1). -/
def c1Page : List Table := [⟨[("ruler")], [c1HeaderTr, ⟨[], c1DataTds⟩]⟩]

/-- The record the code actually produces for the C1 example page. -/
def c1Record : Record :=
  [(("Rank"), Value.int 1), (("RankChange"), Value.int 2),
   (("Player"), Value.str ("Jane Doe")), (("BirthYear"), Value.int 1990),
   (("Points"), Value.int 500), (("PlayerId"), Value.str ("")),
   (("PreviousRank"), Value.int 3), (("RankWeek"), Value.str (""))]

/-- The header schema returned for the C1 example page. -/
def c1Headers : List String :=
  ["Rank", "RankChange", "PreviousRank", "Player", "PlayerId", "BirthYear", "Points", "RankWeek"]

/-- A page identical in shape to the C1 example, used to witness claim C2. -/
def c2Page : List Table :=
  [⟨[("ruler")],
    [⟨[⟨("Rang"), some ("2")⟩, ⟨("Spieler"), none⟩, ⟨("GJahr"), none⟩, ⟨("Punkte"), none⟩], []⟩,
     ⟨[], [⟨[], none, none, ("1")⟩,
           ⟨[("rank_up")], some ("Previous rank: 3"), none, ("x")⟩,
           ⟨[], none, some ⟨("Jane Doe"), some ("p?player=42")⟩, ("Jane Doe")⟩,
           ⟨[], none, none, ("1990")⟩,
           ⟨[], none, none, ("500")⟩]⟩]⟩]

/-- The record the parser produces for the witness page of claim C2. -/
def c2Record : Record :=
  [(("Rank"), Value.int 1), (("RankChange"), Value.int 2),
   (("Player"), Value.str ("Jane Doe")), (("BirthYear"), Value.int 1990),
   (("Points"), Value.int 500), (("PlayerId"), Value.str ("")),
   (("PreviousRank"), Value.int 3), (("RankWeek"), Value.str (""))]

/-- The header schema of the witness page of claim C2. -/
def c2Headers : List String :=
  ["Rank", "RankChange", "PreviousRank", "Player", "PlayerId", "BirthYear", "Points", "RankWeek"]

/-- The spec example cell whose link href is `player.aspx?id=1&player=3423713`. -/
def tdC3a : Td := ⟨[], none, some ⟨("Jane"), some ("player.aspx?id=1&player=3423713")⟩, ("Jane")⟩

/-- The spec example cell whose link href is `player.aspx?player=abc`. -/
def tdC3b : Td := ⟨[], none, some ⟨("Jane"), some ("player.aspx?player=abc")⟩, ("Jane")⟩

/-- A cell whose link href `//[?player=123` is a malformed URL: `urlparse`
raises the Invalid-IPv6 ValueError, which the extractor swallows. -/
def tdC3c : Td := ⟨[], none, some ⟨("Jane"), some ("//[?player=123")⟩, ("Jane")⟩

/-- A cell whose link href contains a tab, which `urlsplit` removes before
parsing, so the `player` parameter is still found. -/
def tdC3d : Td := ⟨[], none, some ⟨("Jane"), some ("player.aspx?pla\tyer=123")⟩, ("Jane")⟩

/-- A page whose ruler table has a blank (`Flag`) column at index 1 and a
data row with a single cell, shorter than the flag index (claim C5). -/
def c5Page : List Table :=
  [⟨[("ruler")],
    [⟨[⟨("Rang"), none⟩, ⟨(""), none⟩, ⟨("Spieler"), none⟩], []⟩,
     ⟨[], [⟨[], none, none, ("7")⟩]⟩]⟩]

/-- The record parsed from the short data row of the C5 page. -/
def c5Record : Record :=
  [(("Rank"), Value.int 7), (("Player"), Value.str ("")), (("PlayerId"), Value.str ("")),
   (("PreviousRank"), Value.str ("")), (("RankChange"), Value.int 0),
   (("RankWeek"), Value.str (""))]

/-- The header schema returned for the C5 page. -/
def c5Headers : List String := ["Rank", "PreviousRank", "Player", "PlayerId", "RankWeek"]

/-- A page whose ruler table has a header cell with a non-numeric colspan
attribute (claim C7). -/
def c7Page : List Table := [⟨[("ruler")], [⟨[⟨("Rang"), some ("abc")⟩], []⟩]⟩]

/-- A page whose ruler table is present but has no row at all (claim C8). -/
def c8Page : List Table := [⟨[("ruler")], []⟩]

/-- The header row of the C8 witness page. -/
def c8WitnessHeaderTr : Tr := ⟨[⟨("Rang"), none⟩], []⟩

/-- The single data row of the C8 witness page. -/
def c8WitnessDataTr : Tr := ⟨[], [⟨[], none, none, ("4")⟩]⟩

/-- The ruler table of the C8 witness page. -/
def c8WitnessTable : Table := ⟨[("ruler")], [c8WitnessHeaderTr, c8WitnessDataTr]⟩

/-- A well-formed one-column page used to witness claim C8. -/
def c8WitnessPage : List Table := [c8WitnessTable]

/-- A page whose rank-change cell text is `-5`: numeric coercion keeps the
minus sign while the digit-run search does not, so raw retention changes the
derived rank fields (claim C10). -/
def c10Page : List Table :=
  [⟨[("ruler")],
    [⟨[⟨("Rang"), some ("2")⟩, ⟨("Spieler"), none⟩, ⟨("GJahr"), none⟩, ⟨("Punkte"), none⟩], []⟩,
     ⟨[], [⟨[], none, none, ("1")⟩,
           ⟨[], none, none, ("-5")⟩,
           ⟨[], none, some ⟨("X"), some ("p?player=9")⟩, ("X")⟩,
           ⟨[], none, none, ("1990")⟩,
           ⟨[], none, none, ("500")⟩]⟩]⟩]

/-- A page used to witness claim C10, with an ordinary rank-change cell. -/
def c10WitnessPage : List Table :=
  [⟨[("ruler")],
    [⟨[⟨("Rang"), some ("2")⟩, ⟨("Spieler"), none⟩, ⟨("GJahr"), none⟩, ⟨("Punkte"), none⟩], []⟩,
     ⟨[], [⟨[], none, none, ("2")⟩,
           ⟨[("rank_down")], some ("Previous rank: 1"), none, ("y")⟩,
           ⟨[], none, some ⟨("Ann Roe"), some ("p?player=7")⟩, ("Ann Roe")⟩,
           ⟨[], none, none, ("1991")⟩,
           ⟨[], none, none, ("400")⟩]⟩]⟩]

/-- The record the parser produces for the C10 witness page with raw
retention enabled. -/
def c10WitnessRawRecord : Record :=
  [(("Rank"), Value.int 2), (("RankChange"), Value.int (-1)),
   (("Player"), Value.str ("Ann Roe")), (("BirthYear"), Value.int 1991),
   (("Points"), Value.int 400), (("PlayerId"), Value.str ("")),
   (("Rank_raw"), Value.str ("2")), (("BirthYear_raw"), Value.str ("1991")),
   (("Points_raw"), Value.str ("400")), (("RankChange_raw"), Value.str ("1")),
   (("PreviousRank"), Value.int 1), (("RankWeek"), Value.str (""))]

/-- The record the parser produces for the C10 witness page with raw
retention disabled. -/
def c10WitnessPlainRecord : Record :=
  [(("Rank"), Value.int 2), (("RankChange"), Value.int (-1)),
   (("Player"), Value.str ("Ann Roe")), (("BirthYear"), Value.int 1991),
   (("Points"), Value.int 400), (("PlayerId"), Value.str ("")),
   (("PreviousRank"), Value.int 1), (("RankWeek"), Value.str (""))]

/-- The header schema of the C10 witness page (either raw mode). -/
def c10WitnessHeaders : List String :=
  ["Rank", "RankChange", "PreviousRank", "Player", "PlayerId", "BirthYear", "Points", "RankWeek"]

/-- The record the parser produces for the C10 page with raw retention on:
the previous rank is recovered as the first digit run of the raw text `-5`,
giving `PreviousRank = 5` and `RankChange = 4`. -/
def c10RawRecord : Record :=
  [(("Rank"), Value.int 1), (("RankChange"), Value.int 4),
   (("Player"), Value.str ("X")), (("BirthYear"), Value.int 1990),
   (("Points"), Value.int 500), (("PlayerId"), Value.str ("")),
   (("Rank_raw"), Value.str ("1")), (("BirthYear_raw"), Value.str ("1990")),
   (("Points_raw"), Value.str ("500")), (("RankChange_raw"), Value.str ("-5")),
   (("PreviousRank"), Value.int 5), (("RankWeek"), Value.str (""))]

/-- The record the parser produces for the C10 page with raw retention off:
the previous rank is the coerced integer `-5`, giving `RankChange = -6`. -/
def c10PlainRecord : Record :=
  [(("Rank"), Value.int 1), (("RankChange"), Value.int (-6)),
   (("Player"), Value.str ("X")), (("BirthYear"), Value.int 1990),
   (("Points"), Value.int 500), (("PlayerId"), Value.str ("")),
   (("PreviousRank"), Value.int (-5)), (("RankWeek"), Value.str (""))]

/-- The header schema returned for the C10 page in either raw mode. -/
def c10Headers : List String :=
  ["Rank", "RankChange", "PreviousRank", "Player", "PlayerId", "BirthYear", "Points", "RankWeek"]

/-! ### Helper lemmas -/

theorem alistGet_set_self {α : Type} (m : List (String × α)) (k : String) (v : α) :
    alistGet (alistSet m k v) k = some v := by
  induction m with
  | nil => simp [alistGet, alistSet]
  | cons hd tl ih =>
    by_cases h : hd.1 = k
    · simp [alistGet, alistSet, h]
    · simp [alistGet, alistSet, h, ih]

theorem alistGet_set_ne {α : Type} (m : List (String × α)) (k k₂ : String) (v : α)
    (h : k₂ ≠ k) : alistGet (alistSet m k v) k₂ = alistGet m k₂ := by
  induction m with
  | nil =>
    show (if k = k₂ then some v else none) = none
    rw [if_neg (fun he => h he.symm)]
  | cons hd tl ih =>
    rcases hd with ⟨k₁, v₁⟩
    show alistGet (if k₁ = k then (k, v) :: tl else (k₁, v₁) :: alistSet tl k v) k₂
        = (if k₁ = k₂ then some v₁ else alistGet tl k₂)
    by_cases hh : k₁ = k
    · rw [if_pos hh]
      show (if k = k₂ then some v else alistGet tl k₂) = _
      rw [if_neg (fun he => h he.symm), if_neg (by rw [hh]; exact fun he => h he.symm)]
    · rw [if_neg hh]
      show (if k₁ = k₂ then some v₁ else alistGet (alistSet tl k v) k₂) = _
      by_cases hk : k₁ = k₂
      · rw [if_pos hk, if_pos hk]
      · rw [if_neg hk, if_neg hk, ih]

theorem currRankInt_some {r : Record} {n : Int} (h : currRankInt r = some n) :
    alistGet r ("Rank") = some (Value.int n) := by
  unfold currRankInt at h
  cases hg : alistGet r ("Rank") with
  | none => rw [hg] at h; exact absurd h (by simp)
  | some v =>
    cases v with
    | int m => rw [hg] at h; simp at h; rw [h]
    | str s => rw [hg] at h; exact absurd h (by simp)

theorem finishRecord_prev_some (kr : Bool) (rw : Option String) (r : Record) (p c : Int)
    (h1 : recoverPrevRank kr r = some p) (h2 : currRankInt r = some c) :
    alistGet (finishRecord kr rw r) ("PreviousRank") = some (Value.int p) ∧
      alistGet (finishRecord kr rw r) ("RankChange") = some (Value.int (p - c)) := by
  unfold finishRecord
  rw [h1, h2]
  constructor
  · rw [alistGet_set_ne _ _ _ _ (by decide), alistGet_set_ne _ _ _ _ (by decide),
      alistGet_set_self]
  · rw [alistGet_set_ne _ _ _ _ (by decide), alistGet_set_self]

theorem finishRecord_prev_none (kr : Bool) (rw : Option String) (r : Record)
    (h : recoverPrevRank kr r = none ∨ currRankInt r = none) :
    alistGet (finishRecord kr rw r) ("PreviousRank") = some (Value.str ("")) ∧
      alistGet (finishRecord kr rw r) ("RankChange") = some (Value.int 0) := by
  have step : ∀ r₂ : Record,
      r₂ = alistSet (alistSet r ("PreviousRank") (Value.str (""))) ("RankChange")
        (Value.int 0) →
      alistGet (alistSet r₂ ("RankWeek") (Value.str (rw.getD ("")))) ("PreviousRank")
          = some (Value.str ("")) ∧
        alistGet (alistSet r₂ ("RankWeek") (Value.str (rw.getD ("")))) ("RankChange")
          = some (Value.int 0) := by
    intro r₂ hr
    subst hr
    constructor
    · rw [alistGet_set_ne _ _ _ _ (by decide), alistGet_set_ne _ _ _ _ (by decide),
        alistGet_set_self]
    · rw [alistGet_set_ne _ _ _ _ (by decide), alistGet_set_self]
  unfold finishRecord
  rcases h with h | h
  · rw [h]
    cases currRankInt r <;> exact step _ rfl
  · rw [h]
    cases hrec : recoverPrevRank kr r <;> exact step _ rfl

theorem finishRecord_get_other (kr : Bool) (rw : Option String) (r : Record) (k : String)
    (h1 : k ≠ ("PreviousRank")) (h2 : k ≠ ("RankChange")) (h3 : k ≠ ("RankWeek")) :
    alistGet (finishRecord kr rw r) k = alistGet r k := by
  unfold finishRecord
  cases recoverPrevRank kr r <;> cases currRankInt r <;>
    rw [alistGet_set_ne _ _ _ _ h3, alistGet_set_ne _ _ _ _ h2, alistGet_set_ne _ _ _ _ h1]

theorem finishRecord_get_rankWeek (kr : Bool) (rw : Option String) (r : Record) :
    alistGet (finishRecord kr rw r) ("RankWeek") = some (Value.str (rw.getD (""))) := by
  unfold finishRecord
  cases recoverPrevRank kr r <;> cases currRankInt r <;> rw [alistGet_set_self]

theorem ne_append_raw (f : String) : f ≠ f ++ ("_raw") := by
  intro h
  have hlen := congrArg String.length h
  rw [String.length_append] at hlen
  have h4 : (("_raw") : String).length = 4 := rfl
  omega

theorem coerceOne_none (kr : Bool) (r : Record) (f : String)
    (hv : alistGet r f = none) : coerceOne kr r f = r := by
  unfold coerceOne
  rw [hv]

theorem coerceOne_some (kr : Bool) (r : Record) (f : String) (v : Value)
    (hv : alistGet r f = some v) :
    coerceOne kr r f
      = alistSet (if kr then alistSet r (f ++ ("_raw")) v else r) f (coerceValue v) := by
  unfold coerceOne
  rw [hv]

theorem alistGet_coerceOne_self (kr : Bool) (r : Record) (f : String) (v : Value)
    (hv : alistGet r f = some v) :
    alistGet (coerceOne kr r f) f = some (coerceValue v) := by
  rw [coerceOne_some kr r f v hv]
  exact alistGet_set_self _ _ _

theorem alistGet_coerceOne_other (kr : Bool) (r : Record) (f k : String)
    (h1 : k ≠ f) (h2 : k ≠ f ++ ("_raw")) :
    alistGet (coerceOne kr r f) k = alistGet r k := by
  cases hv : alistGet r f with
  | none => rw [coerceOne_none kr r f hv]
  | some v =>
    rw [coerceOne_some kr r f v hv, alistGet_set_ne _ _ _ _ h1]
    cases kr
    · rw [if_neg (by decide)]
    · rw [if_pos rfl]
      exact alistGet_set_ne _ _ _ _ h2

theorem coerceOne_agree {a b : Record} (f : String)
    (hraw : rawFieldKeys.contains (f ++ ("_raw")) = true)
    (hf : rawFieldKeys.contains f = false)
    (h : rawAgree a b) : rawAgree (coerceOne true a f) (coerceOne false b f) := by
  intro k hk
  have hread : alistGet b f = alistGet a f := (h f hf).symm
  cases hv : alistGet a f with
  | none =>
    rw [coerceOne_none true a f hv, coerceOne_none false b f (hread.trans hv)]
    exact h k hk
  | some v =>
    have hkraw : k ≠ f ++ ("_raw") := by
      intro he
      rw [he, hraw] at hk
      exact Bool.noConfusion hk
    rw [coerceOne_some true a f v hv, coerceOne_some false b f v (hread.trans hv),
      if_pos rfl, if_neg (by decide)]
    by_cases hkf : k = f
    · subst hkf
      rw [alistGet_set_self, alistGet_set_self]
    · rw [alistGet_set_ne _ _ _ _ hkf, alistGet_set_ne _ _ _ _ hkf,
        alistGet_set_ne _ _ _ _ hkraw]
      exact h k hk

theorem coerceFields_agree (r : Record) :
    rawAgree (coerceFields true r) (coerceFields false r) := by
  have base : rawAgree r r := fun _ _ => rfl
  simp only [coerceFields, numericFields, List.foldl]
  exact coerceOne_agree _ (by decide) (by decide)
    (coerceOne_agree _ (by decide) (by decide)
      (coerceOne_agree _ (by decide) (by decide)
        (coerceOne_agree _ (by decide) (by decide)
          (coerceOne_agree _ (by decide) (by decide) base))))

theorem rawAgree_not_mem {r₁ r₂ : Record} (h : rawAgree r₁ r₂) (k : String)
    (hk : k ∉ rawFieldKeys) : alistGet r₁ k = alistGet r₂ k :=
  h k (by simp [hk])

theorem finishRecord_agree (rw : Option String) {a b : Record}
    (h : rawAgree a b) : recAgree (finishRecord true rw a) (finishRecord false rw b) := by
  intro k hk
  have hk₂ : k ∉ rawSensitiveKeys := by
    intro hmem
    rw [(by simp [hmem] : rawSensitiveKeys.contains k = true)] at hk
    exact Bool.noConfusion hk
  simp only [rawSensitiveKeys, List.mem_append, List.mem_cons, List.not_mem_nil,
    not_or] at hk₂
  obtain ⟨hkraw, hkPR, hkRC, _⟩ := hk₂
  by_cases hkw : k = ("RankWeek")
  · subst hkw
    rw [finishRecord_get_rankWeek, finishRecord_get_rankWeek]
  · rw [finishRecord_get_other _ _ _ _ hkPR hkRC hkw,
      finishRecord_get_other _ _ _ _ hkPR hkRC hkw]
    exact rawAgree_not_mem h k hkraw

theorem preRecord_agree (hzip : List String) (df : Bool) (fi : Option Nat) (tds : List Td) :
    rawAgree (preRecord hzip df fi true tds) (preRecord hzip df fi false tds) := by
  unfold preRecord
  exact coerceFields_agree _

theorem buildRecord_agree (hzip : List String) (df : Bool) (fi : Option Nat)
    (rw : Option String) (tds : List Td) :
    recAgree (buildRecord hzip df fi true rw tds) (buildRecord hzip df fi false rw tds) := by
  unfold buildRecord
  exact finishRecord_agree rw (preRecord_agree hzip df fi tds)

theorem processRow_cases (hzip : List String) (df : Bool) (fi : Option Nat)
    (kr : Bool) (rw : Option String) (tr : Tr) :
    processRow hzip df fi kr rw tr = none ∨
      processRow hzip df fi kr rw tr = some (buildRecord hzip df fi kr rw tr.tds) := by
  unfold processRow
  by_cases h1 : (!tr.ths.isEmpty) = true
  · left; rw [if_pos h1]
  · rw [if_neg h1]
    by_cases h2 : (tr.tds.any (fun td => td.classes.contains ("noruler"))) = true
    · left; rw [if_pos h2]
    · rw [if_neg h2]
      by_cases h3 : tr.tds.isEmpty = true
      · left; rw [if_pos h3]
      · right; rw [if_neg h3]

theorem processRow_none_any (hzip : List String) (df : Bool) (fi : Option Nat)
    (rw : Option String) (tr : Tr) (kr kr₂ : Bool)
    (h : processRow hzip df fi kr rw tr = none) :
    processRow hzip df fi kr₂ rw tr = none := by
  unfold processRow at h ⊢
  by_cases h1 : (!tr.ths.isEmpty) = true
  · rw [if_pos h1]
  · rw [if_neg h1] at h ⊢
    by_cases h2 : (tr.tds.any (fun td => td.classes.contains ("noruler"))) = true
    · rw [if_pos h2]
    · rw [if_neg h2] at h ⊢
      by_cases h3 : tr.tds.isEmpty = true
      · rw [if_pos h3]
      · rw [if_neg h3] at h
        exact absurd h (by simp)

theorem processRow_agree (hzip : List String) (df : Bool) (fi : Option Nat)
    (rw : Option String) (trs : List Tr) :
    List.Forall₂ recAgree
      (trs.filterMap (processRow hzip df fi true rw))
      (trs.filterMap (processRow hzip df fi false rw)) := by
  induction trs with
  | nil => simp
  | cons tr rest ih =>
    rcases processRow_cases hzip df fi true rw tr with hp1 | hp1
    · have hp2 := processRow_none_any hzip df fi rw tr true false hp1
      simp only [List.filterMap_cons, hp1, hp2]
      exact ih
    · rcases processRow_cases hzip df fi false rw tr with hp2 | hp2
      · have hcontra := processRow_none_any hzip df fi rw tr false true hp2
        rw [hp1] at hcontra
        exact absurd hcontra (by simp)
      · simp only [List.filterMap_cons, hp1, hp2]
        exact List.Forall₂.cons (buildRecord_agree hzip df fi rw tr.tds) ih

theorem alistGet_eq_none_of_not_mem {α : Type} (m : List (String × α)) (k : String)
    (h : k ∉ m.map Prod.fst) : alistGet m k = none := by
  induction m with
  | nil => rfl
  | cons hd tl ih =>
    simp only [List.map_cons, List.mem_cons, not_or] at h
    show (if hd.1 = k then some hd.2 else alistGet tl k) = none
    rw [if_neg (fun he => h.1 he.symm), ih h.2]

theorem expandHeaderCells_ok (th : Th) (h : (colspanVal th).isSome) :
    ∃ ls, expandHeaderCells th = Except.ok ls := by
  unfold expandHeaderCells
  split
  · rename_i hv
    rw [hv] at h
    exact absurd h (by simp)
  · rename_i n hv
    by_cases hn : n ≤ 1
    · rw [if_pos hn]
      exact ⟨_, rfl⟩
    · rw [if_neg hn]
      exact ⟨_, rfl⟩

theorem expandAll_ok (ths : List Th) (h : ∀ th ∈ ths, (colspanVal th).isSome) :
    ∃ rh, expandAll ths = Except.ok rh := by
  induction ths with
  | nil => exact ⟨[], rfl⟩
  | cons th rest ih =>
    obtain ⟨rh, hrh⟩ := ih (fun t ht => h t (List.mem_cons_of_mem th ht))
    obtain ⟨ls, hls⟩ := expandHeaderCells_ok th (h th (List.mem_cons_self th rest))
    refine ⟨ls ++ rh, ?_⟩
    unfold expandAll
    rw [hls, hrh]

theorem parse_ok_elim {page : List Table} {kf kr : Bool} {rw : Option String}
    {rows : List Record} {hdrs : List String}
    (hok : parseRulerTable page kf rw kr = Except.ok (rows, hdrs)) :
    ∃ table htr rawHeaders, findRuler page = some table ∧
      table.trs.head? = some htr ∧ expandAll htr.ths = Except.ok rawHeaders ∧
      parseRows table kf rw kr (rawHeaders.map canonMap) = (rows, hdrs) := by
  unfold parseRulerTable at hok
  split at hok
  · exact absurd hok (by simp)
  · rename_i table hfr
    split at hok
    · exact absurd hok (by simp)
    · rename_i htr hh
      split at hok
      · exact absurd hok (by simp)
      · rename_i rawHeaders hex
        simp only [Except.ok.injEq] at hok
        exact ⟨table, htr, rawHeaders, hfr, hh, hex, hok⟩

theorem mem_rows_build {page : List Table} {kf kr : Bool} {rw : Option String}
    {rows : List Record} {hdrs : List String} {r : Record}
    (hok : parseRulerTable page kf rw kr = Except.ok (rows, hdrs)) (hr : r ∈ rows) :
    ∃ b : Record, r = finishRecord kr rw b := by
  obtain ⟨table, htr, rawHeaders, _, _, _, hpr⟩ := parse_ok_elim hok
  set hk0 := rawHeaders.map canonMap with hhk0
  have hrows : rows = (parseRows table kf rw kr hk0).1 := by rw [hpr]
  rw [hrows] at hr
  simp only [parseRows] at hr
  obtain ⟨tr, _, hsome⟩ := List.mem_filterMap.mp hr
  rcases processRow_cases _ _ _ kr rw tr with hnone | hsome₂
  · rw [hnone] at hsome
    exact absurd hsome (by simp)
  · rw [hsome₂] at hsome
    have hb := Option.some.inj hsome
    refine ⟨preRecord (headersForZip (fullHeaderKeys kf hk0)) (dropFlagOf kf hk0)
      (flagIndexOf kf hk0) kr tr.tds, ?_⟩
    rw [← hb]
    rfl

/-! ### Claim theorems -/

/-- C1, counterexample: on the end-to-end example page the parser produces
exactly one record with `Rank = 1`, `PreviousRank = 3`, `RankChange = 2`,
`Player = "Jane Doe"`, `BirthYear = 1990`, `Points = 500` — but its
`PlayerId` is the empty string, not the integer 42 the claim states: the
identifier is read from the fixed original cell position 3, which in this
five-column layout (no blank Flag column) is the link-free `GJahr` cell. -/
theorem c1_counterexample :
    parseRulerTable c1Page false none false = Except.ok ([c1Record], c1Headers) ∧
      alistGet c1Record ("PlayerId") = some (Value.str ("")) ∧
      Value.str ("") ≠ Value.int 42 :=
  ⟨by rfl, by rfl, by decide⟩

/-- C1, amended: parsing the example page yields exactly one record with
`Rank = 1`, `PreviousRank = 3`, `RankChange = 2`, `Player = "Jane Doe"`,
`BirthYear = 1990`, `Points = 500`, and `PlayerId` empty (the fixed
position-3 identifier lookup lands on the `GJahr` cell, which has no link). -/
theorem c1_amended :
    parseRulerTable c1Page false none false = Except.ok ([c1Record], c1Headers) := by rfl

/-- C2: for every parsed data row — over every page and option combination —
either the record holds integers with `RankChange = PreviousRank - Rank`, or
`PreviousRank` is the empty string and `RankChange` is 0; moreover, whenever
the recovered previous rank and the coerced current rank are both known
integers the produced `PreviousRank` is exactly that recovered number and
`RankChange` its difference with the rank, and otherwise the empty/zero
defaults are produced. -/
theorem c2_rank_change_derivation :
    (∀ (page : List Table) (kf : Bool) (rw : Option String) (kr : Bool)
        (rows : List Record) (hdrs : List String) (r : Record),
      parseRulerTable page kf rw kr = Except.ok (rows, hdrs) → r ∈ rows →
      (∃ p c : Int, alistGet r ("PreviousRank") = some (Value.int p) ∧
          alistGet r ("Rank") = some (Value.int c) ∧
          alistGet r ("RankChange") = some (Value.int (p - c))) ∨
        (alistGet r ("PreviousRank") = some (Value.str ("")) ∧
          alistGet r ("RankChange") = some (Value.int 0))) ∧
    (∀ (kr : Bool) (rw : Option String) (b : Record) (p c : Int),
      recoverPrevRank kr b = some p → currRankInt b = some c →
      alistGet (finishRecord kr rw b) ("PreviousRank") = some (Value.int p) ∧
        alistGet (finishRecord kr rw b) ("RankChange") = some (Value.int (p - c))) ∧
    (∀ (kr : Bool) (rw : Option String) (b : Record),
      recoverPrevRank kr b = none ∨ currRankInt b = none →
      alistGet (finishRecord kr rw b) ("PreviousRank") = some (Value.str ("")) ∧
        alistGet (finishRecord kr rw b) ("RankChange") = some (Value.int 0)) := by
  refine ⟨?_, finishRecord_prev_some, finishRecord_prev_none⟩
  intro page kf rw kr rows hdrs r hok hr
  obtain ⟨b, hb⟩ := mem_rows_build hok hr
  subst hb
  cases hprev : recoverPrevRank kr b with
  | none => exact Or.inr (finishRecord_prev_none kr rw b (Or.inl hprev))
  | some p =>
    cases hcurr : currRankInt b with
    | none => exact Or.inr (finishRecord_prev_none kr rw b (Or.inr hcurr))
    | some c =>
      left
      obtain ⟨h1, h2⟩ := finishRecord_prev_some kr rw b p c hprev hcurr
      refine ⟨p, c, h1, ?_, h2⟩
      rw [finishRecord_get_other kr rw b _ (by decide) (by decide) (by decide)]
      exact currRankInt_some hcurr

/-- Witness for C2: the universal statement applied to a concrete page whose
single record has `PreviousRank = 3`, `Rank = 1`, `RankChange = 2`. -/
theorem c2_witness :
    (∃ p c : Int, alistGet c2Record ("PreviousRank") = some (Value.int p) ∧
        alistGet c2Record ("Rank") = some (Value.int c) ∧
        alistGet c2Record ("RankChange") = some (Value.int (p - c))) ∨
      (alistGet c2Record ("PreviousRank") = some (Value.str ("")) ∧
        alistGet c2Record ("RankChange") = some (Value.int 0)) :=
  c2_rank_change_derivation.1 c2Page false none false [c2Record] c2Headers c2Record (by rfl)
    (List.mem_singleton_self c2Record)

/-- C9: the table parser is a pure function of the page structure and the
option triple, so two invocations on the same inputs return identical record
lists and identical header schemas. -/
theorem c9_deterministic (page : List Table) (kf : Bool) (rw : Option String) (kr : Bool) :
    parseRulerTable page kf rw kr = parseRulerTable page kf rw kr := rfl

/-- C3: the identifier extractor returns an integer exactly when the cell
has an anchor with a non-empty href that `urlsplit` accepts and whose
`player` query parameter exists and is composed entirely of digits, in
which case the integer is the decimal value of those digits; every other
shape — including a malformed href on which `urlsplit` raises, which the
extractor's `except` clause swallows — yields `none`. In particular, href
`player.aspx?id=1&player=3423713` yields 3423713,
`player.aspx?player=abc` yields no identifier, the bracket-mismatched href
`//[?player=123` makes `urlsplit` raise Invalid IPv6 URL (caught, so no
identifier), and `urlsplit` first strips tabs so
`player.aspx?pla\tyer=123` yields 123. -/
theorem c3_identifier_extraction :
    (∀ (td : Td) (n : Int), extractPlayerIdFromTd td = some n ↔
      ∃ a href v, td.anchor = some a ∧ a.href = some href ∧ href ≠ ("") ∧
        playerParamE href = Except.ok (some v) ∧ v ≠ ("") ∧ v.data.all Char.isDigit = true ∧
        n = ((digitsToNat v.data : Nat) : Int)) ∧
    extractPlayerIdFromTd tdC3a = some 3423713 ∧
    extractPlayerIdFromTd tdC3b = none ∧
    extractPlayerIdFromTd tdC3c = none ∧
    urlsplitQuery ("//[?player=123") = Except.error PyErr.invalidIpv6 ∧
    extractPlayerIdFromTd tdC3d = some 123 := by
  refine ⟨?_, by rfl, by rfl, by rfl, by rfl, by rfl⟩
  intro td n
  constructor
  · intro h
    unfold extractPlayerIdFromTd at h
    split at h
    · exact absurd h (by simp)
    · rename_i a ha
      split at h
      · exact absurd h (by simp)
      · rename_i href hh
        split at h
        · exact absurd h (by simp)
        · rename_i he
          split at h
          · exact absurd h (by simp)
          · exact absurd h (by simp)
          · rename_i v hp
            split at h
            · rename_i hd
              exact ⟨a, href, v, ha, hh, he, hp, hd.1, hd.2, (Option.some.inj h).symm⟩
            · exact absurd h (by simp)
  · rintro ⟨a, href, v, ha, hh, he, hp, hv, hd, hn⟩
    unfold extractPlayerIdFromTd
    simp only [ha, hh, hp, if_neg he]
    rw [if_pos ⟨hv, hd⟩, hn]

/-- Witness for C3: the characterization applied to the concrete example
cell, together with the concrete shape facts it requires. -/
theorem c3_witness :
    extractPlayerIdFromTd tdC3a = some 3423713 ∧
      (extractPlayerIdFromTd tdC3a = some 3423713 ↔
        ∃ a href v, tdC3a.anchor = some a ∧ a.href = some href ∧ href ≠ ("") ∧
          playerParamE href = Except.ok (some v) ∧ v ≠ ("") ∧
          v.data.all Char.isDigit = true ∧
          (3423713 : Int) = ((digitsToNat v.data : Nat) : Int)) :=
  ⟨c3_identifier_extraction.2.1, c3_identifier_extraction.1 tdC3a 3423713⟩

/-- C10, counterexample: on a page whose rank-change cell text is `-5`,
enabling raw retention changes the produced `RankChange` from -6 to 4 (the
raw path recovers the previous rank as the first digit run `5` of the raw
snapshot, while the plain path uses the coerced integer `-5`), so the two
modes do not agree on all non-raw fields as the claim states. -/
theorem c10_counterexample :
    parseRulerTable c10Page false none true = Except.ok ([c10RawRecord], c10Headers) ∧
    parseRulerTable c10Page false none false = Except.ok ([c10PlainRecord], c10Headers) ∧
    alistGet c10RawRecord ("RankChange") = some (Value.int 4) ∧
    alistGet c10PlainRecord ("RankChange") = some (Value.int (-6)) ∧
    Value.int 4 ≠ Value.int (-6) :=
  ⟨by rfl, by rfl, by rfl, by rfl, by decide⟩

/-- C10, amended: for every page and option pair, parsing with raw retention
enabled fails exactly when parsing with it disabled fails (with the same
exception), returns the identical header schema, and produces records that
agree on every key outside the raw snapshots (`<Field>_raw`) and the two
derived fields `PreviousRank` and `RankChange`; the derived pair can differ
because its derivation reads the raw snapshot in one mode and the coerced
field in the other. -/
theorem c10_raw_retention_amended (page : List Table) (kf : Bool) (rw : Option String) :
    (∀ e : PyErr, parseRulerTable page kf rw true = Except.error e ↔
        parseRulerTable page kf rw false = Except.error e) ∧
    (∀ rows₁ hdrs₁ rows₂ hdrs₂,
      parseRulerTable page kf rw true = Except.ok (rows₁, hdrs₁) →
      parseRulerTable page kf rw false = Except.ok (rows₂, hdrs₂) →
      hdrs₁ = hdrs₂ ∧ List.Forall₂ recAgree rows₁ rows₂) := by
  constructor
  · intro e
    unfold parseRulerTable
    cases hfr : findRuler page with
    | none => simp
    | some table =>
      cases hh : table.trs.head? with
      | none => simp [hh]
      | some htr =>
        cases hex : expandAll htr.ths with
        | error e₂ => simp [hh, hex]
        | ok rawHeaders => simp [hh, hex]
  · intro rows₁ hdrs₁ rows₂ hdrs₂ h1 h2
    obtain ⟨t₁, htr₁, rh₁, hfr₁, hh₁, hex₁, hpr₁⟩ := parse_ok_elim h1
    obtain ⟨t₂, htr₂, rh₂, hfr₂, hh₂, hex₂, hpr₂⟩ := parse_ok_elim h2
    rw [hfr₁] at hfr₂
    injection hfr₂ with ht
    subst ht
    rw [hh₁] at hh₂
    injection hh₂ with hht
    subst hht
    rw [hex₁] at hex₂
    injection hex₂ with hrh
    subst hrh
    simp only [parseRows, Prod.mk.injEq] at hpr₁ hpr₂
    obtain ⟨hr₁, hd₁⟩ := hpr₁
    obtain ⟨hr₂, hd₂⟩ := hpr₂
    constructor
    · rw [← hd₁, ← hd₂]
    · rw [← hr₁, ← hr₂]
      exact processRow_agree _ _ _ rw t₁.trs

/-- Witness for C10: the agreement statement applied to a concrete page,
whose two parses produce equal header schemas and pointwise-agreeing rows. -/
theorem c10_witness :
    c10WitnessHeaders = c10WitnessHeaders ∧
      List.Forall₂ recAgree [c10WitnessRawRecord] [c10WitnessPlainRecord] :=
  (c10_raw_retention_amended c10WitnessPage false none).2
    [c10WitnessRawRecord] c10WitnessHeaders [c10WitnessPlainRecord] c10WitnessHeaders
    (by rfl) (by rfl)

/-- C6: a header cell whose colspan parses to `n > 1` expands into exactly
`n` labels — the base label at position 0 and `base#(i+2)` at each position
`i + 1` — so the labels stay positionally aligned with the `n` data-cell
slots below; a cell with blank text gets the base label `Flag`. -/
theorem c6_span_expansion :
    (∀ (th : Th) (n : Int), colspanVal th = some n → 1 < n →
      ∃ labels, expandHeaderCells th = Except.ok labels ∧
        labels.length = n.toNat ∧
        labels.get? 0 = some (baseLabel th) ∧
        ∀ i : Nat, i + 1 < n.toNat →
          labels.get? (i + 1) = some (baseLabel th ++ ("#") ++ toString (i + 2))) ∧
    (∀ th : Th, normalizeWs th.text = ("") → baseLabel th = ("Flag")) := by
  constructor
  · intro th n hcs hn
    refine ⟨baseLabel th ::
      (List.range (n.toNat - 1)).map (fun i => baseLabel th ++ ("#") ++ toString (i + 2)),
      ?_, ?_, rfl, ?_⟩
    · unfold expandHeaderCells
      simp only [hcs]
      rw [if_neg (by omega : ¬ n ≤ 1)]
    · simp only [List.length_cons, List.length_map, List.length_range]
      omega
    · intro i hi
      simp only [List.get?_cons_succ, List.get?_map]
      rw [List.get?_range (by omega)]
      rfl
  · intro th hblank
    simp [baseLabel, hblank]

/-- Witness for C6: the expansion statement applied to a concrete span-2
`Rang` cell, and the blank-label statement applied to a blank cell. -/
theorem c6_witness :
    (∃ labels, expandHeaderCells ⟨("Rang"), some ("2")⟩ = Except.ok labels ∧
      labels.length = (2 : Int).toNat ∧
      labels.get? 0 = some (baseLabel ⟨("Rang"), some ("2")⟩) ∧
      ∀ i : Nat, i + 1 < (2 : Int).toNat →
        labels.get? (i + 1)
          = some (baseLabel ⟨("Rang"), some ("2")⟩ ++ ("#") ++ toString (i + 2))) ∧
    baseLabel ⟨(" "), none⟩ = ("Flag") :=
  ⟨c6_span_expansion.1 ⟨("Rang"), some ("2")⟩ 2 (by rfl) (by decide),
    c6_span_expansion.2 ⟨(" "), none⟩ (by rfl)⟩

/-- C7, counterexample: the header normalizer does raise on some header
cell input — a cell whose colspan attribute is the non-numeric string `abc`
makes `int()` raise a ValueError, which propagates out of the whole page
parse — contradicting the claim that expansion completes without an
exception for arbitrary colspan attributes. -/
theorem c7_counterexample :
    expandHeaderCells ⟨("Rang"), some ("abc")⟩ = Except.error PyErr.intParseFailure ∧
    parseRulerTable c7Page false none false = Except.error PyErr.intParseFailure :=
  ⟨by rfl, by rfl⟩

/-- C7, amended: header expansion completes without an exception provided
each colspan attribute present parses as a Python integer literal — which,
per PEP 515, admits single underscores between digits, so colspan `1_0`
parses as 10 and expands to ten labels rather than raising; labels not in
the synonym table pass through the canonical mapping unchanged; and the
normalizer is a pure function, hence deterministic on identical markup. -/
theorem c7_amended :
    (∀ th : Th, (colspanVal th).isSome → ∃ ls, expandHeaderCells th = Except.ok ls) ∧
    (∀ h : String, lowerStr h ∉ canonPairs.map Prod.fst → canonMap h = h) ∧
    pyIntStr ("1_0") = some 10 ∧
    (∀ th : Th, expandHeaderCells th = expandHeaderCells th) := by
  refine ⟨expandHeaderCells_ok, ?_, by rfl, fun _ => rfl⟩
  intro h hmem
  unfold canonMap
  rw [alistGet_eq_none_of_not_mem _ _ hmem]

/-- Witness for C7: the no-exception statement applied to a parseable
colspan, to an underscore-grouped colspan (PEP 515), and the pass-through
statement applied to an unknown label. -/
theorem c7_witness :
    (∃ ls, expandHeaderCells ⟨("Rang"), some ("3")⟩ = Except.ok ls) ∧
      (∃ ls, expandHeaderCells ⟨("Rang"), some ("1_0")⟩ = Except.ok ls) ∧
      canonMap ("Unbekannt") = ("Unbekannt") :=
  ⟨c7_amended.1 ⟨("Rang"), some ("3")⟩ (by rfl),
    c7_amended.1 ⟨("Rang"), some ("1_0")⟩ (by rfl),
    c7_amended.2.1 ("Unbekannt") (by decide)⟩

/-- C8, counterexample: a page whose ruler table is present but empty (no
row at all) makes `tbody.find("tr")` return `None` and the subsequent
`find_all` raise an AttributeError — a condition different from the
table-not-found ValueError that also propagates to the caller, so the
structural table-absence failure is not the only propagating condition. -/
theorem c8_counterexample :
    parseRulerTable c8Page false none false = Except.error PyErr.attributeFailure ∧
    PyErr.attributeFailure ≠ PyErr.tableNotFound :=
  ⟨by rfl, by decide⟩

/-- C8, amended: whenever no table matches the ruler class marker the parse
aborts with the table-not-found ValueError instead of returning an empty
record list; and whenever a ruler table is found that has at least one row
and only parseable colspan attributes in that first row, the parse succeeds
(all cell-level anomalies degrade to defaults), though an empty table or a
bad colspan also raises. -/
theorem c8_missing_table_aborts :
    (∀ (page : List Table) (kf : Bool) (rw : Option String) (kr : Bool),
      findRuler page = none →
      parseRulerTable page kf rw kr = Except.error PyErr.tableNotFound) ∧
    (∀ (page : List Table) (t : Table) (kf : Bool) (rw : Option String) (kr : Bool)
        (htr : Tr) (rest : List Tr),
      findRuler page = some t → t.trs = htr :: rest →
      (∀ th ∈ htr.ths, (colspanVal th).isSome) →
      ∃ rows hdrs, parseRulerTable page kf rw kr = Except.ok (rows, hdrs)) := by
  constructor
  · intro page kf rw kr hfr
    unfold parseRulerTable
    simp [hfr]
  · intro page t kf rw kr htr rest hfr htrs hths
    obtain ⟨rh, hrh⟩ := expandAll_ok htr.ths hths
    refine ⟨(parseRows t kf rw kr (rh.map canonMap)).1,
      (parseRows t kf rw kr (rh.map canonMap)).2, ?_⟩
    unfold parseRulerTable
    simp [hfr, htrs, hrh]

/-- Witness for C8: the abort statement applied to a table-free page, and
the success statement applied to a well-formed one-column page. -/
theorem c8_witness :
    parseRulerTable [] false none false = Except.error PyErr.tableNotFound ∧
      ∃ rows hdrs, parseRulerTable c8WitnessPage false none false = Except.ok (rows, hdrs) :=
  ⟨c8_missing_table_aborts.1 [] false none false (by rfl),
    c8_missing_table_aborts.2 c8WitnessPage c8WitnessTable false none false
      c8WitnessHeaderTr [c8WitnessDataTr] (by rfl) (by rfl) (by decide)⟩

theorem dropWhile_eq_self_of_false {p : Char → Bool} {l : List Char}
    (h : ∀ c ∈ l, p c = false) : l.dropWhile p = l := by
  cases l with
  | nil => rfl
  | cons c rest =>
    have hc := h c (List.mem_cons_self c rest)
    simp [List.dropWhile_cons, hc]

theorem stripWs_eq_self {l : List Char} (h : ∀ c ∈ l, isPyWs c = false) : stripWs l = l := by
  unfold stripWs
  rw [dropWhile_eq_self_of_false h,
    dropWhile_eq_self_of_false (fun c hc => h c (List.mem_reverse.mp hc))]
  exact List.reverse_reverse l

theorem isPyWs_false_of_numchar {c : Char} (h : (c.isDigit || c == '-') = true) :
    isPyWs c = false := by
  cases hw : isPyWs c
  · rfl
  · exfalso
    unfold isPyWs at hw
    simp only [Bool.or_eq_true, decide_eq_true_eq] at hw
    rcases hw with ((((h1 | h1) | h1) | h1) | h1) | h1 <;> subst h1 <;>
      exact absurd h (by decide)

theorem groupedRest_all_digits {l : List Char}
    (h : ∀ c ∈ l, (c.isDigit || c == '-') = true) :
    groupedRest l = if l.all Char.isDigit then some l else none := by
  induction l with
  | nil => rfl
  | cons c rest ih =>
    have hc := h c (List.mem_cons_self c rest)
    have hund : ¬ c = '_' := by
      intro he
      rw [he] at hc
      exact absurd hc (by decide)
    cases rest with
    | nil =>
      by_cases hd : c.isDigit <;> simp [groupedRest, hd, List.all_cons]
    | cons c₂ rest₂ =>
      have ihr := ih (fun x hx => h x (List.mem_cons_of_mem c hx))
      simp only [groupedRest]
      rw [if_neg hund]
      by_cases hd : c.isDigit
      · rw [if_pos hd, ihr]
        by_cases hall : (c₂ :: rest₂).all Char.isDigit
        · rw [if_pos hall]
          simp [List.all_cons, hd, hall]
        · rw [if_neg hall]
          simp only [List.all_cons] at hall ⊢
          rw [if_neg (by simp [hd, hall])]
          rfl
      · rw [if_neg hd, if_neg (by simp [List.all_cons, hd])]

theorem pyIntDigits_all_digits {l : List Char}
    (h : ∀ c ∈ l, (c.isDigit || c == '-') = true) :
    pyIntDigits l = if !l.isEmpty && l.all Char.isDigit then some l else none := by
  cases l with
  | nil => rfl
  | cons c rest =>
    simp only [pyIntDigits]
    by_cases hd : c.isDigit
    · rw [if_pos hd, groupedRest_all_digits (fun x hx => h x (List.mem_cons_of_mem c hx))]
      by_cases hall : rest.all Char.isDigit
      · rw [if_pos hall]
        simp [List.all_cons, hd, hall]
      · rw [if_neg hall]
        simp [List.all_cons, hd, hall]
    · rw [if_neg hd, if_neg (by simp [List.all_cons, hd])]

theorem coerceValue_str_eq (s : String) : coerceValue (Value.str s) = coerceAmendedSpec s := by
  unfold coerceValue coerceAmendedSpec stripNonNum
  simp only [pyStr]
  rcases hk : s.data.filter (fun c => c.isDigit || c == '-') with _ | ⟨c, rest⟩
  · simp [hk]
  · simp only [hk]
    have hpred : ∀ x ∈ c :: rest, (x.isDigit || x == '-') = true := by
      rw [← hk]
      exact fun x hx => (List.mem_filter.mp hx).2
    have hne : String.mk (c :: rest) ≠ ("") := by
      intro h
      have h2 := congrArg String.data h
      exact absurd h2 (by simp)
    rw [if_neg hne]
    have hpy : pyIntStr (String.mk (c :: rest)) = intOfDigitsSigned (c :: rest) := by
      unfold pyIntStr
      rw [stripWs_eq_self (fun x hx => isPyWs_false_of_numchar (hpred x hx))]
    rw [hpy]
    simp only [intOfDigitsSigned]
    have hrest : ∀ x ∈ rest, (x.isDigit || x == '-') = true :=
      fun x hx => hpred x (List.mem_cons_of_mem c hx)
    by_cases hc : c = '-'
    · rw [if_pos hc, if_pos hc, pyIntDigits_all_digits hrest]
      by_cases hd : (!rest.isEmpty && rest.all Char.isDigit) = true
      · rw [if_pos hd, if_pos hd]
        rfl
      · rw [if_neg hd, if_neg hd]
        rfl
    · have hplus : ¬ c = '+' := by
        intro hp
        have hcp := hpred c (List.mem_cons_self c rest)
        rw [hp] at hcp
        exact absurd hcp (by decide)
      rw [if_neg hc, if_neg hc, if_neg hplus, pyIntDigits_all_digits hpred]
      simp only [List.isEmpty_cons, Bool.not_false, Bool.true_and]
      by_cases hd : ((c :: rest).all Char.isDigit) = true
      · rw [if_pos hd, if_pos hd]
        rfl
      · rw [if_neg hd, if_neg hd]
        rfl

theorem alistGet_coerceFields (kr : Bool) (r : Record) (f : String) (v : Value)
    (hf : f ∈ numericFields) (hv : alistGet r f = some v) :
    alistGet (coerceFields kr r) f = some (coerceValue v) := by
  simp only [coerceFields, numericFields, List.foldl]
  simp only [numericFields, List.mem_cons, List.not_mem_nil, or_false] at hf
  rcases hf with rfl | rfl | rfl | rfl | rfl
  · rw [alistGet_coerceOne_other kr _ ("RankChange") _ (by decide) (by decide),
      alistGet_coerceOne_other kr _ ("Tournaments") _ (by decide) (by decide),
      alistGet_coerceOne_other kr _ ("Points") _ (by decide) (by decide),
      alistGet_coerceOne_other kr _ ("BirthYear") _ (by decide) (by decide)]
    exact alistGet_coerceOne_self kr r _ v hv
  · rw [alistGet_coerceOne_other kr _ ("RankChange") _ (by decide) (by decide),
      alistGet_coerceOne_other kr _ ("Tournaments") _ (by decide) (by decide),
      alistGet_coerceOne_other kr _ ("Points") _ (by decide) (by decide)]
    refine alistGet_coerceOne_self kr _ _ v ?_
    rw [alistGet_coerceOne_other kr _ ("Rank") _ (by decide) (by decide)]
    exact hv
  · rw [alistGet_coerceOne_other kr _ ("RankChange") _ (by decide) (by decide),
      alistGet_coerceOne_other kr _ ("Tournaments") _ (by decide) (by decide)]
    refine alistGet_coerceOne_self kr _ _ v ?_
    rw [alistGet_coerceOne_other kr _ ("BirthYear") _ (by decide) (by decide),
      alistGet_coerceOne_other kr _ ("Rank") _ (by decide) (by decide)]
    exact hv
  · rw [alistGet_coerceOne_other kr _ ("RankChange") _ (by decide) (by decide)]
    refine alistGet_coerceOne_self kr _ _ v ?_
    rw [alistGet_coerceOne_other kr _ ("Points") _ (by decide) (by decide),
      alistGet_coerceOne_other kr _ ("BirthYear") _ (by decide) (by decide),
      alistGet_coerceOne_other kr _ ("Rank") _ (by decide) (by decide)]
    exact hv
  · refine alistGet_coerceOne_self kr _ _ v ?_
    rw [alistGet_coerceOne_other kr _ ("Tournaments") _ (by decide) (by decide),
      alistGet_coerceOne_other kr _ ("Points") _ (by decide) (by decide),
      alistGet_coerceOne_other kr _ ("BirthYear") _ (by decide) (by decide),
      alistGet_coerceOne_other kr _ ("Rank") _ (by decide) (by decide)]
    exact hv

/-- C4, counterexample: on the text `a-5` the coercion of the code keeps
the non-leading minus sign (the regex strips every character except digits
and minus signs wherever they occur) and parses -5, while the algorithm the
claim literally states — keep digits plus a minus only when it leads the
original text — yields 5; the claim as stated therefore does not describe
the code. -/
theorem c4_counterexample :
    coerceValue (Value.str ("a-5")) = Value.int (-5) ∧
    coerceClaimLiteral ("a-5") = Value.int 5 ∧
    Value.int (-5) ≠ Value.int 5 :=
  ⟨by rfl, by rfl, by decide⟩

/-- C4, amended: for each of the five numeric fields present in a row, the
normalizer strips every character except digits and minus signs (wherever
they occur) and parses the remainder as an integer — the field becomes that
integer exactly when the remainder is an optional leading minus followed by
at least one digit, and keeps its original text otherwise, never raising;
in particular `1.234` coerces to 1234 and the empty string stays the empty
string. -/
theorem c4_amended :
    (∀ s : String, coerceValue (Value.str s) = coerceAmendedSpec s) ∧
    coerceValue (Value.str ("1.234")) = Value.int 1234 ∧
    coerceValue (Value.str ("")) = Value.str ("") ∧
    (∀ (kr : Bool) (r : Record) (f : String) (v : Value),
      f ∈ numericFields → alistGet r f = some v →
      alistGet (coerceFields kr r) f = some (coerceValue v)) :=
  ⟨coerceValue_str_eq, by rfl, by rfl, alistGet_coerceFields⟩

/-- Witness for C4: the coercion statement applied to a concrete record
whose `Points` text is `1.234`, and the equivalence at that input. -/
theorem c4_witness :
    alistGet (coerceFields true [(("Points"), Value.str ("1.234"))]) ("Points")
      = some (coerceValue (Value.str ("1.234"))) ∧
    coerceValue (Value.str ("1.234")) = coerceAmendedSpec ("1.234") :=
  ⟨c4_amended.2.2.2 true [(("Points"), Value.str ("1.234"))] ("Points")
      (Value.str ("1.234")) (by decide) (by rfl),
    c4_amended.1 ("1.234")⟩

theorem length_insertAt (n : Nat) (a : String) (l : List String) :
    (insertAt n a l).length = l.length + 1 := by
  induction l generalizing n with
  | nil => cases n <;> rfl
  | cons x xs ih =>
    cases n with
    | zero => rfl
    | succ m => simp [insertAt, ih m]

theorem mem_insertAt {b : String} (n : Nat) (a : String) (l : List String)
    (h : b ∈ insertAt n a l) : b = a ∨ b ∈ l := by
  induction l generalizing n with
  | nil =>
    cases n <;> simp [insertAt] at h <;> exact Or.inl h
  | cons x xs ih =>
    cases n with
    | zero =>
      simp only [insertAt, List.mem_cons] at h
      rcases h with h | h | h
      · exact Or.inl h
      · exact Or.inr (by simp [h])
      · exact Or.inr (List.mem_cons_of_mem x h)
    | succ m =>
      simp only [insertAt, List.mem_cons] at h
      rcases h with h | h
      · exact Or.inr (by simp [h])
      · rcases ih m h with h2 | h2
        · exact Or.inl h2
        · exact Or.inr (List.mem_cons_of_mem x h2)

theorem filter_insertAt_false (p : String → Bool) (n : Nat) (a : String) (l : List String)
    (hp : p a = false) : (insertAt n a l).filter p = l.filter p := by
  induction l generalizing n with
  | nil => cases n <;> simp [insertAt, List.filter, hp]
  | cons x xs ih =>
    cases n with
    | zero => simp [insertAt, List.filter_cons, hp]
    | succ m => simp [insertAt, List.filter_cons, ih m]

theorem insertAt_append (a : String) (l : List String) :
    insertAt l.length a l = l ++ [a] := by
  induction l with
  | nil => rfl
  | cons x xs ih => simp [insertAt, List.length_cons, ih]

theorem padTruncate_length (n : Nat) (vs : List String) : (padTruncate n vs).length = n := by
  unfold padTruncate
  by_cases h : vs.length < n
  · rw [if_pos h]
    simp only [List.length_append, List.length_replicate]
    omega
  · rw [if_neg h]
    simp only [List.length_take]
    omega

theorem insertPreviousRank_insertAt (hk : List String)
    (h : ("PreviousRank" : String) ∉ hk) :
    ∃ k, insertPreviousRank hk = insertAt k ("PreviousRank") hk := by
  unfold insertPreviousRank
  rw [if_neg (by simp [h])]
  rcases hfi : hk.findIdx? (fun x => x == ("RankChange")) with _ | i
  · simp only [hfi]
    exact ⟨1, rfl⟩
  · simp only [hfi]
    exact ⟨i + 1, rfl⟩

theorem insertPlayerId_insertAt (hk : List String)
    (h : ("PlayerId" : String) ∉ hk) :
    ∃ k, insertPlayerId hk = insertAt k ("PlayerId") hk := by
  unfold insertPlayerId
  rw [if_neg (by simp [h])]
  rcases hfi : hk.findIdx? (fun x => x == ("Player")) with _ | i
  · simp only [hfi]
    refine ⟨hk.length, ?_⟩
    rw [insertAt_append]
  · simp only [hfi]
    exact ⟨i + 1, rfl⟩

/-- C5, counterexample: on a page whose `Flag` column has original index 1
but whose data row has a single cell, the guarded delete removes no value at
all (the code only deletes when the captured index is inside the row), so
it is not true that exactly one value is removed from every data row. -/
theorem c5_counterexample :
    parseRulerTable c5Page false none false = Except.ok ([c5Record], c5Headers) ∧
    (expandAll [⟨("Rang"), none⟩, ⟨(""), none⟩, ⟨("Spieler"), none⟩]).map
        (fun rh => rh.map canonMap) = Except.ok [("Rank"), ("Flag"), ("Player")] ∧
    flagIndexOf false [("Rank"), ("Flag"), ("Player")] = some 1 ∧
    ([⟨[], none, none, ("7")⟩] : List Td).map extractCellText = [("7")] ∧
    dropFlagValue true (some 1) [("7")] = [("7")] ∧
    ([("7")] : List String).length ≠ ([("7")] : List String).length - 1 :=
  ⟨by rfl, by rfl, by rfl, by rfl, by rfl, by decide⟩

/-- C5, amended: when the blank column is dropped, the captured flag index
is its position in the canonical headers before any virtual-column
insertion; a data row longer than that index loses exactly the value at the
index, while a shorter row is left unchanged; and after padding or
truncation every row has exactly `len(headerSchema) - 3` values — the two
inserted virtual columns plus the appended `RankWeek` accounting for the
difference with the returned schema. -/
theorem c5_amended (hk0 : List String) (i : Nat)
    (hidx : hk0.findIdx? (fun h => h == ("Flag")) = some i)
    (hctn : hk0.contains ("Flag") = true)
    (hPR : ("PreviousRank" : String) ∉ hk0)
    (hPI : ("PlayerId" : String) ∉ hk0)
    (hRW : ("RankWeek" : String) ∉ hk0) :
    dropFlagOf false hk0 = true ∧
    flagIndexOf false hk0 = some i ∧
    (∀ values : List String, i < values.length →
      dropFlagValue true (some i) values = values.eraseIdx i ∧
      (dropFlagValue true (some i) values).length + 1 = values.length) ∧
    (∀ values : List String, ¬ i < values.length →
      dropFlagValue true (some i) values = values) ∧
    (∀ values : List String,
      (padTruncate (headersForZip (fullHeaderKeys false hk0)).length values).length + 3
        = (finalHeaderKeys (fullHeaderKeys false hk0)).length) := by
  have hdrop : dropFlagOf false hk0 = true := by
    unfold dropFlagOf
    rw [hctn]
    rfl
  refine ⟨hdrop, ?_, ?_, ?_, ?_⟩
  · unfold flagIndexOf
    rw [if_pos hdrop, hidx]
  · intro values hlt
    constructor
    · simp only [dropFlagValue]
      rw [if_pos hlt]
    · simp only [dropFlagValue]
      rw [if_pos hlt]
      exact List.length_eraseIdx_add_one hlt
  · intro values hge
    simp only [dropFlagValue]
    rw [if_neg hge]
  · intro values
    set hk1 := hk0.filter (fun h => !(h == ("Flag"))) with hhk1
    have hsub : ∀ x ∈ hk1, x ∈ hk0 := fun x hx => List.mem_of_mem_filter hx
    have hPR1 : ("PreviousRank" : String) ∉ hk1 := fun hx => hPR (hsub _ hx)
    have hPI1 : ("PlayerId" : String) ∉ hk1 := fun hx => hPI (hsub _ hx)
    have hRW1 : ("RankWeek" : String) ∉ hk1 := fun hx => hRW (hsub _ hx)
    obtain ⟨k1, hk1eq⟩ := insertPreviousRank_insertAt hk1 hPR1
    have hPI2 : ("PlayerId" : String) ∉ insertAt k1 ("PreviousRank") hk1 := by
      intro hx
      rcases mem_insertAt k1 _ hk1 hx with h | h
      · exact absurd h (by decide)
      · exact hPI1 h
    obtain ⟨k2, hk2eq⟩ := insertPlayerId_insertAt (insertAt k1 ("PreviousRank") hk1) hPI2
    have hfull2 : fullHeaderKeys false hk0
        = insertAt k2 ("PlayerId") (insertAt k1 ("PreviousRank") hk1) := by
      unfold fullHeaderKeys
      rw [if_pos hdrop, ← hhk1]
      show insertPlayerId (insertPreviousRank hk1) = _
      rw [hk1eq, hk2eq]
    have hRWfull : ("RankWeek" : String) ∉ fullHeaderKeys false hk0 := by
      rw [hfull2]
      intro hx
      rcases mem_insertAt _ _ _ hx with h | h
      · exact absurd h (by decide)
      · rcases mem_insertAt _ _ _ h with h2 | h2
        · exact absurd h2 (by decide)
        · exact hRW1 h2
    have hfinal : finalHeaderKeys (fullHeaderKeys false hk0)
        = fullHeaderKeys false hk0 ++ [("RankWeek")] := by
      unfold finalHeaderKeys
      rw [if_neg (by simp [hRWfull])]
    have hzip : headersForZip (fullHeaderKeys false hk0) = hk1 := by
      rw [hfull2]
      unfold headersForZip
      rw [filter_insertAt_false _ _ _ _ (by decide), filter_insertAt_false _ _ _ _ (by decide)]
      apply List.filter_eq_self.mpr
      intro x hx
      have hx0 : x ∈ hk0 := hsub x hx
      have hnv : x ∉ virtualNames := by
        intro hv
        simp only [virtualNames, List.mem_cons, List.not_mem_nil, or_false] at hv
        rcases hv with rfl | rfl | rfl
        · exact hPR hx0
        · exact hPI hx0
        · exact hRW hx0
      simp [hnv]
    rw [hzip, padTruncate_length, hfinal, hfull2]
    simp only [List.length_append, length_insertAt, List.length_cons, List.length_nil]

/-- Witness for C5: the amended statement applied to the concrete canonical
headers `[Rank, Flag, Player]` with flag index 1, a three-value row losing
exactly its middle value, and the length arithmetic on a short row. -/
theorem c5_witness :
    (dropFlagValue true (some 1) [("a"), ("b"), ("c")]
        = ([("a"), ("b"), ("c")] : List String).eraseIdx 1 ∧
      (dropFlagValue true (some 1) [("a"), ("b"), ("c")]).length + 1
        = ([("a"), ("b"), ("c")] : List String).length) ∧
    (padTruncate (headersForZip (fullHeaderKeys false [("Rank"), ("Flag"), ("Player")])).length
        [("x")]).length + 3
      = (finalHeaderKeys (fullHeaderKeys false [("Rank"), ("Flag"), ("Player")])).length :=
  ⟨(c5_amended [("Rank"), ("Flag"), ("Player")] 1 (by rfl) (by rfl) (by decide) (by decide)
      (by decide)).2.2.1 [("a"), ("b"), ("c")] (by decide),
    (c5_amended [("Rank"), ("Flag"), ("Player")] 1 (by rfl) (by rfl) (by decide) (by decide)
      (by decide)).2.2.2.2 [("x")]⟩

end DbvScraper
